import Mathlib

/-!
Verification of the peer registry and signal-routing core of the
voice-transmission signaling server (src/api/index.ts), together with the
ICE configuration endpoint and its earlier variant (src/unnamed/part_000).

The Socket.IO handlers are embedded as pure functions over an explicit
registry state.  The `peers` value in the source is a plain JavaScript
object literal, so two JavaScript peculiarities are modelled explicitly:

* membership is tested with the `in` operator (`to in peers`), which also
  answers true for properties inherited from `Object.prototype`;
* the registration guard tests truthiness of `peers[socket.id]`, which is
  truthy for every inherited `Object.prototype` property as well.

Handlers return the list of messages they emit.  All functions are total,
mirroring the fact that no handler in the source throws: `delete` on a
missing key is a silent no-op and a failed membership test only logs.
-/

namespace VoiceServer

/-- Identifier assigned by the transport to one connection (socket id). -/
abbrev PeerId := String

/-- Opaque signaling payload: the server never inspects it. -/
abbrev Payload := String

/-- Registry state: the own enumerable string keys of the `peers` object
literal, in insertion order (the order `Object.keys` reports them). -/
abbrev Registry := List PeerId

/-- Property names inherited by every plain object literal from
`Object.prototype`; each of them has a truthy (function or object) value. -/
def protoNames : List String :=
  ["constructor", "hasOwnProperty", "isPrototypeOf", "propertyIsEnumerable",
   "toLocaleString", "toString", "valueOf", "__defineGetter__",
   "__defineSetter__", "__lookupGetter__", "__lookupSetter__", "__proto__"]

/-- JavaScript membership test `id in peers` (src/api/index.ts line 142):
true for own keys and for properties inherited from `Object.prototype`. -/
def jsIn (r : Registry) (id : PeerId) : Bool :=
  r.contains id || protoNames.contains id

/-- Truthiness of the lookup `peers[id]` as used by the registration guard
`if (!peers[socket.id])` (src/api/index.ts line 122): own entries hold the
truthy object `{}`, and every inherited `Object.prototype` property is
truthy, so the lookup is truthy on exactly the same set `jsIn` accepts. -/
def jsGetTruthy (r : Registry) (id : PeerId) : Bool :=
  r.contains id || protoNames.contains id

/-- Message emitted by a handler through the transport. -/
inductive Emission where
  /-- private message `socket.emit("introduction", ids)` to one connection -/
  | introduction (target : PeerId) (ids : List PeerId)
  /-- broadcast `io.emit("newUserConnected", id)` -/
  | newUserConnected (id : PeerId)
  /-- forwarded signal `io.to(target).emit("signal", fromArg, toArg, payload)`;
  the fields are `Option` because the JavaScript values may be `undefined` -/
  | signal (target : Option PeerId) (fromArg : Option PeerId)
      (toArg : Option PeerId) (payload : Option Payload)
  /-- broadcast `io.sockets.emit("userDisconnected", id)` -/
  | userDisconnected (id : PeerId)
deriving DecidableEq

/-- Outcome of the registration guard in the connection handler. -/
inductive RegOutcome where
  | registered
  | alreadyRegistered
deriving DecidableEq

/-- Semantic outcome of routing one signal. -/
inductive RouteOutcome where
  | success
  | peerNotFound
deriving DecidableEq

/-- Connection handler (src/api/index.ts lines 121-131): when
`peers[socket.id]` is falsy the peer is stored (`peers[socket.id] = {}`),
the joining socket privately receives `introduction` carrying
`Object.keys(peers)` — evaluated after the insertion, hence ending in the
new id — and `newUserConnected` is broadcast; otherwise nothing happens
and no error is raised. -/
def handleConnection (r : Registry) (id : PeerId) :
    Registry × List Emission × RegOutcome :=
  if jsGetTruthy r id then (r, [], RegOutcome.alreadyRegistered)
  else (r ++ [id],
        [Emission.introduction id (r ++ [id]), Emission.newUserConnected id],
        RegOutcome.registered)

/-- Coercion of a possibly-undefined JavaScript value to the property key
used by the `in` operator: `undefined` coerces to the string "undefined". -/
def jsKey : Option PeerId → PeerId
  | none => "undefined"
  | some s => s

/-- Signal handler (src/api/index.ts lines 141-148) at the JavaScript value
level: each of the three positional arguments of
`socket.on("signal", (to, from, data))` may be `undefined` (`none`).  The
membership test `to in peers` coerces `undefined` to the key "undefined";
on success the server emits `signal` to the room named by the raw `to`
value with arguments `(from, to, data)` forwarded unchanged. -/
def handleSignalRaw (r : Registry) (toArg fromArg : Option PeerId)
    (data : Option Payload) : List Emission :=
  if jsIn r (jsKey toArg) then [Emission.signal toArg fromArg toArg data] else []

/-- Signal handler with all three arguments present, the well-formed case
used by the routing claims: `socket.on("signal", (to, from, data))`
performs `io.to(to).emit("signal", from, to, data)` when `to in peers`
and only logs otherwise. -/
def handleSignal (r : Registry) (toId fromId : PeerId) (data : Payload) :
    List Emission :=
  if jsIn r toId then
    [Emission.signal (some toId) (some fromId) (some toId) (some data)]
  else []

/-- Semantic outcome of the `to in peers` branch of the signal handler:
the taken branch either sends (success) or logs that the peer was not
found. -/
def routeOutcome (r : Registry) (toId : PeerId) : RouteOutcome :=
  if jsIn r toId then RouteOutcome.success else RouteOutcome.peerNotFound

/-- Disconnect handler (src/api/index.ts lines 156-164):
`delete peers[socket.id]` — removing the own key when present, a silent
no-op otherwise, never an error — followed by the `userDisconnected`
broadcast. -/
def handleDisconnect (r : Registry) (id : PeerId) : Registry × List Emission :=
  (r.erase id, [Emission.userDisconnected id])

/-- Environment variables consulted by the ICE configuration endpoint;
`none` models a variable absent from `process.env`. -/
structure IceEnv where
  TURN_URL : Option String
  TURN_USERNAME : Option String
  TURN_PASSWORD : Option String
deriving DecidableEq

/-- Value of a `urls` field: a single URL string or a list of URL strings. -/
inductive Urls where
  | one (s : String)
  | many (l : List String)
deriving DecidableEq

/-- ICE server descriptor; `none` in a field models an absent or
`undefined` property. -/
structure IceServer where
  urls : Option Urls
  username : Option String
  credential : Option String
deriving DecidableEq

/-- Google STUN descriptor, the constant first entry of both variants. -/
def stunServer : IceServer :=
  { urls := some (Urls.one "stun:stun.l.google.com:19302"),
    username := none, credential := none }

/-- JavaScript truthiness of an environment variable lookup: `undefined`
and the empty string are falsy, every other string is truthy. -/
def envTruthy : Option String → Bool
  | none => false
  | some s => !(s == "")

/-- Comma split with per-part trim, `s.split(",").map(u => u.trim())`. -/
def splitTrim (s : String) : List String :=
  (s.splitOn ",").map String.trim

/-- Corrected ICE configuration endpoint (src/api/index.ts lines 43-64):
starts from the STUN entry and pushes a TURN entry only when `TURN_URL`,
`TURN_USERNAME` and `TURN_PASSWORD` are all truthy. -/
def iceConfig (e : IceEnv) : List IceServer :=
  if envTruthy e.TURN_URL && envTruthy e.TURN_USERNAME &&
      envTruthy e.TURN_PASSWORD then
    [stunServer,
     { urls := e.TURN_URL.map (fun u => Urls.many (splitTrim u)),
       username := e.TURN_USERNAME, credential := e.TURN_PASSWORD }]
  else [stunServer]

/-- Earlier ICE configuration endpoint (src/unnamed/part_000 lines 71-86):
unconditionally two descriptors, the second built from the optional chain
`process.env.TURN_URL?.split(",").map(u => u.trim())` and the raw, possibly
`undefined`, username and credential variables. -/
def iceConfigOld (e : IceEnv) : List IceServer :=
  [stunServer,
   { urls := e.TURN_URL.map (fun u => Urls.many (splitTrim u)),
     username := e.TURN_USERNAME, credential := e.TURN_PASSWORD }]

/-- Transport event delivered to the server core; the Node event loop
processes events serially, one handler invocation at a time. -/
inductive Event where
  | connect (id : PeerId)
  | signal (toId fromId : PeerId) (data : Payload)
  | disconnect (id : PeerId)
deriving DecidableEq

/-- Single event-loop step: dispatch one event to its handler. -/
def step (r : Registry) : Event → Registry × List Emission
  | Event.connect id => ((handleConnection r id).1, (handleConnection r id).2.1)
  | Event.signal toId fromId d => (r, handleSignal r toId fromId d)
  | Event.disconnect id => handleDisconnect r id

/-- Serial execution of a trace of events, concatenating the emissions in
processing order. -/
def run (r : Registry) : List Event → Registry × List Emission
  | [] => (r, [])
  | e :: es =>
      ((run (step r e).1 es).1, (step r e).2 ++ (run (step r e).1 es).2)

/-- Payloads submitted in a trace by the sender `f` addressed to the
target `t`, in submission order.  A signal event is attributed to the
sender named in its `from` argument, matching the protocol, which never
verifies that `from` equals the id of the submitting connection. -/
def submitted (f t : PeerId) : List Event → List Payload
  | [] => []
  | Event.signal toId f2 d :: es =>
      if toId = t ∧ f2 = f then d :: submitted f t es else submitted f t es
  | Event.connect _ :: es => submitted f t es
  | Event.disconnect _ :: es => submitted f t es

/-- Payloads of forwarded signal emissions targeted at `t` and carrying
the sender `f`, in emission order. -/
def delivered (f t : PeerId) : List Emission → List Payload
  | [] => []
  | Emission.signal target f2 _ d :: es =>
      if target = some t ∧ f2 = some f then d.toList ++ delivered f t es
      else delivered f t es
  | Emission.introduction _ _ :: es => delivered f t es
  | Emission.newUserConnected _ :: es => delivered f t es
  | Emission.userDisconnected _ :: es => delivered f t es

/-- Membership characterisation of the JavaScript `in` test. -/
theorem jsIn_eq_true_iff (r : Registry) (id : PeerId) :
    jsIn r id = true ↔ id ∈ r ∨ id ∈ protoNames := by
  simp [jsIn]

/-- Falsity characterisation of the JavaScript `in` test. -/
theorem jsIn_eq_false_iff (r : Registry) (id : PeerId) :
    jsIn r id = false ↔ id ∉ r ∧ id ∉ protoNames := by
  rw [← Bool.not_eq_true, jsIn_eq_true_iff]
  tauto

/-- C1 (counterexample): from the empty registry, the joining peer p1
receives an introduction snapshot equal to ["p1"], which contains p1
itself, while the registry immediately before p1's registration was empty;
the claim that the snapshot equals the prior membership and excludes the
joining peer is false. -/
theorem C1_snapshot_cex :
    (handleConnection [] "p1").2.1 =
      [Emission.introduction "p1" ["p1"], Emission.newUserConnected "p1"] ∧
    "p1" ∉ ([] : Registry) ∧ "p1" ∈ ["p1"] := by
  refine ⟨by decide, by decide, by decide⟩

/-- C1 (amended): for every joining peer whose id passes the registration
guard, the private introduction message carries the ids registered
immediately before the registration together with the joining id appended
at the end — the snapshot `Object.keys(peers)` is taken after the
insertion and therefore includes the joining peer itself. -/
theorem C1_introduction_snapshot (r : Registry) (id : PeerId)
    (h : jsGetTruthy r id = false) :
    handleConnection r id =
      (r ++ [id],
       [Emission.introduction id (r ++ [id]), Emission.newUserConnected id],
       RegOutcome.registered) := by
  simp [handleConnection, h]

/-- Witness for C1 at a concrete input: registry ["A"], joining id "B". -/
theorem C1_introduction_snapshot_witness :
    jsGetTruthy ["A"] "B" = false ∧
    handleConnection ["A"] "B" =
      (["A"] ++ ["B"],
       [Emission.introduction "B" (["A"] ++ ["B"]),
        Emission.newUserConnected "B"],
       RegOutcome.registered) :=
  ⟨by decide, C1_introduction_snapshot ["A"] "B" (by decide)⟩

/-- C2 (counterexample): the id "toString" is not registered in the empty
registry, yet a signal routed to it is sent (one emission) and the outcome
is success, not PeerNotFound, because the membership test uses the
JavaScript `in` operator. -/
theorem C2_route_cex :
    "toString" ∉ ([] : Registry) ∧
    handleSignal [] "toString" "A" "x" =
      [Emission.signal (some "toString") (some "A") (some "toString")
        (some "x")] ∧
    routeOutcome [] "toString" = RouteOutcome.success := by
  refine ⟨by decide, by decide, by decide⟩

/-- C2 (amended): for every call route(to, from, payload), if `to` is
registered or is an inherited `Object.prototype` property name, exactly one
send of the signal message is issued to `to`'s connection carrying `from`
and `payload` unchanged and the outcome is success; otherwise no send is
issued and the outcome is PeerNotFound. -/
theorem C2_route_amended (r : Registry) (toId fromId : PeerId) (data : Payload) :
    (handleSignal r toId fromId data =
        [Emission.signal (some toId) (some fromId) (some toId) (some data)] ∧
      routeOutcome r toId = RouteOutcome.success ∧
      (toId ∈ r ∨ toId ∈ protoNames)) ∨
    (handleSignal r toId fromId data = [] ∧
      routeOutcome r toId = RouteOutcome.peerNotFound ∧
      ¬ (toId ∈ r ∨ toId ∈ protoNames)) := by
  by_cases h : jsIn r toId = true
  · exact Or.inl ⟨by simp [handleSignal, h], by simp [routeOutcome, h],
      (jsIn_eq_true_iff r toId).1 h⟩
  · have hf : jsIn r toId = false := by
      revert h
      cases jsIn r toId <;> simp
    refine Or.inr ⟨by simp [handleSignal, hf], by simp [routeOutcome, hf], ?_⟩
    have := (jsIn_eq_false_iff r toId).1 hf
    tauto

/-- C3 (confirmed): the response of GET /api/ice-config always has the
public STUN descriptor as its first entry; it contains a TURN descriptor
precisely when all three TURN variables are configured (set to a truthy,
i.e. non-empty, value), in which case the second descriptor carries
`TURN_URL` split on commas with each part trimmed plus the environment's
username and credential; with any of the three missing the response is
exactly the STUN descriptor alone. -/
theorem C3_iceConfig_composition (e : IceEnv) :
    (iceConfig e).head? = some stunServer ∧
    ((envTruthy e.TURN_URL && envTruthy e.TURN_USERNAME &&
        envTruthy e.TURN_PASSWORD) = true →
      ∃ url user pass,
        e.TURN_URL = some url ∧ e.TURN_USERNAME = some user ∧
        e.TURN_PASSWORD = some pass ∧
        iceConfig e =
          [stunServer,
           { urls := some (Urls.many ((url.splitOn ",").map String.trim)),
             username := some user, credential := some pass }]) ∧
    ((envTruthy e.TURN_URL && envTruthy e.TURN_USERNAME &&
        envTruthy e.TURN_PASSWORD) = false →
      iceConfig e = [stunServer]) := by
  obtain ⟨u, n, p⟩ := e
  refine ⟨?_, ?_, ?_⟩
  · cases u <;> cases n <;> cases p <;> simp [iceConfig] <;> split <;> simp
  · intro h
    cases u with
    | none => simp [envTruthy] at h
    | some us =>
      cases n with
      | none => simp [envTruthy] at h
      | some ns =>
        cases p with
        | none => simp [envTruthy] at h
        | some ps =>
          exact ⟨us, ns, ps, rfl, rfl, rfl, by simp [iceConfig, h, splitTrim]⟩
  · intro h
    simp [iceConfig, h]

/-- Witness for C3 at the concrete environment of the spec's example. -/
theorem C3_iceConfig_composition_witness :
    (iceConfig ⟨some "turn:a,turns:b", some "u", some "c"⟩).head? =
      some stunServer :=
  (C3_iceConfig_composition ⟨some "turn:a,turns:b", some "u", some "c"⟩).1

/-- C4 (counterexample): for the id "toString", unregistering twice leaves
own-key membership false, yet a subsequent route to it issues a send and
yields success rather than PeerNotFound, because the inherited
`Object.prototype` property makes the `in` test answer true. -/
theorem C4_unregister_cex :
    "toString" ∉ (handleDisconnect [] "toString").1 ∧
    handleSignal (handleDisconnect [] "toString").1 "toString" "A" "x" ≠ [] ∧
    routeOutcome (handleDisconnect [] "toString").1 "toString" =
      RouteOutcome.success := by
  refine ⟨by decide, by decide, by decide⟩

/-- C4 (amended): for every id that is not an inherited `Object.prototype`
property name, unregister is idempotent — neither call errors (the handler
is total), membership is false after either call, the second call leaves
the registry unchanged — and any subsequent route to that id issues no
send and produces PeerNotFound.  The registry keys are distinct because a
JavaScript object cannot hold duplicate keys. -/
theorem C4_unregister_idempotent (r : Registry) (id : PeerId)
    (h1 : r.Nodup) (h2 : id ∉ protoNames) (x : PeerId) (d : Payload) :
    id ∉ (handleDisconnect r id).1 ∧
    (handleDisconnect (handleDisconnect r id).1 id).1 =
      (handleDisconnect r id).1 ∧
    id ∉ (handleDisconnect (handleDisconnect r id).1 id).1 ∧
    handleSignal (handleDisconnect r id).1 id x d = [] ∧
    routeOutcome (handleDisconnect r id).1 id = RouteOutcome.peerNotFound := by
  have hmem : id ∉ r.erase id := h1.not_mem_erase
  have herase : (r.erase id).erase id = r.erase id := List.erase_of_not_mem hmem
  have hjs : jsIn (r.erase id) id = false := by
    rw [jsIn_eq_false_iff]
    exact ⟨hmem, h2⟩
  refine ⟨hmem, ?_, ?_, ?_, ?_⟩
  · simpa [handleDisconnect] using herase
  · simpa [handleDisconnect, herase] using hmem
  · simp [handleSignal, handleDisconnect, hjs]
  · simp [routeOutcome, handleDisconnect, hjs]

/-- Witness for C4 at a concrete input: registry ["A", "B"], id "B". -/
theorem C4_unregister_idempotent_witness :
    (["A", "B"] : Registry).Nodup ∧ "B" ∉ protoNames ∧
    ("B" ∉ (handleDisconnect ["A", "B"] "B").1 ∧
     (handleDisconnect (handleDisconnect ["A", "B"] "B").1 "B").1 =
       (handleDisconnect ["A", "B"] "B").1 ∧
     "B" ∉ (handleDisconnect (handleDisconnect ["A", "B"] "B").1 "B").1 ∧
     handleSignal (handleDisconnect ["A", "B"] "B").1 "B" "A" "x" = [] ∧
     routeOutcome (handleDisconnect ["A", "B"] "B").1 "B" =
       RouteOutcome.peerNotFound) :=
  ⟨by decide, by decide,
   C4_unregister_idempotent ["A", "B"] "B" (by decide) (by decide) "A" "x"⟩

/-- C5 (counterexample): with both "a" and "b" registered, an inbound
signal event with argument list ("a", "b", "p") is routed to room "a" and
forwarded with arguments ("b", "a", "p"): the first inbound argument is
treated as the target.  Had the server read the inbound arguments as
(from, to, payload), as the claim states, the single send would have been
the distinct emission targeting "b" and carrying from = "a". -/
theorem C5_argument_order_cex :
    handleSignal ["a", "b"] "a" "b" "p" =
      [Emission.signal (some "a") (some "b") (some "a") (some "p")] ∧
    Emission.signal (some "a") (some "b") (some "a") (some "p") ≠
      Emission.signal (some "b") (some "a") (some "b") (some "p") := by
  refine ⟨by decide, by decide⟩

/-- C5 (amended): the server reads an inbound signal event's three
arguments as (to, from, payload) — the first argument names the target —
and, when the target key passes the `in` test, emits the forwarded signal
event to that target with arguments in the order (from, to, payload);
otherwise it emits nothing. -/
theorem C5_argument_order (r : Registry) (a b : PeerId) (d : Payload) :
    (jsIn r a = true ∧
      handleSignal r a b d =
        [Emission.signal (some a) (some b) (some a) (some d)]) ∨
    (jsIn r a = false ∧ handleSignal r a b d = []) := by
  by_cases h : jsIn r a = true
  · exact Or.inl ⟨h, by simp [handleSignal, h]⟩
  · have hf : jsIn r a = false := by
      revert h
      cases jsIn r a <;> simp
    exact Or.inr ⟨hf, by simp [handleSignal, hf]⟩

/-- C6 (confirmed): a connection event whose id is already registered
skips the introduction entirely — no introduction message, no
newUserConnected broadcast, the registry is unchanged, and the guard
resolves to AlreadyRegistered without raising any error. -/
theorem C6_duplicate_connection (r : Registry) (id : PeerId) (h : id ∈ r) :
    handleConnection r id = (r, [], RegOutcome.alreadyRegistered) := by
  have : jsGetTruthy r id = true := by
    simp [jsGetTruthy, h]
  simp [handleConnection, this]

/-- Witness for C6 at a concrete input: registry ["A"], reconnecting "A". -/
theorem C6_duplicate_connection_witness :
    "A" ∈ (["A"] : Registry) ∧
    handleConnection ["A"] "A" = (["A"], [], RegOutcome.alreadyRegistered) :=
  ⟨by decide, C6_duplicate_connection ["A"] "A" (by decide)⟩

/-- C7 (counterexample): an inbound signal event whose `from` argument is
missing (undefined) but whose target "A" is registered is not dropped: the
handler still issues the send, forwarding the undefined `from` value, so
the claim that any message missing one of to/from/payload is dropped with
no delivery is false. -/
theorem C7_missing_field_cex :
    handleSignalRaw ["A"] (some "A") none (some "p") =
      [Emission.signal (some "A") none (some "A") (some "p")] ∧
    handleSignalRaw ["A"] (some "A") none (some "p") ≠ [] := by
  refine ⟨by decide, by decide⟩

/-- C7 (amended): the signal handler performs no presence validation at
all.  An event missing `to` is looked up under the coerced key "undefined"
and is dropped (only a diagnostic is logged, the connection is never torn
down) whenever that key is not registered; an event whose target passes
the membership test is forwarded even when `from` or `payload` is missing,
with the undefined values passed through unchanged. -/
theorem C7_no_field_validation (r : Registry) (fromArg : Option PeerId)
    (d : Option Payload) :
    ("undefined" ∉ r → handleSignalRaw r none fromArg d = []) ∧
    (∀ toId, jsIn r toId = true →
      handleSignalRaw r (some toId) fromArg d =
        [Emission.signal (some toId) fromArg (some toId) d]) := by
  constructor
  · intro h
    have : jsIn r "undefined" = false := by
      rw [jsIn_eq_false_iff]
      exact ⟨h, by decide⟩
    simp [handleSignalRaw, jsKey, this]
  · intro toId h
    simp [handleSignalRaw, jsKey, h]

/-- Witness for C7 at a concrete input: the registered target "A" still
receives an event missing both `from` and `payload`. -/
theorem C7_no_field_validation_witness :
    handleSignalRaw ["A"] (some "A") none none =
      [Emission.signal (some "A") none (some "A") none] :=
  (C7_no_field_validation ["A"] none none).2 "A" (by decide)

/-- C8 (confirmed): the corrected and the earlier ice-config handlers
return identical descriptor lists exactly when all three TURN variables
are truthy; and whenever one of them is absent, the corrected variant
returns only the STUN descriptor while the earlier variant returns a
second descriptor having an undefined urls, username or credential
field. -/
theorem C8_variant_equivalence (e : IceEnv) :
    (iceConfig e = iceConfigOld e ↔
      (envTruthy e.TURN_URL && envTruthy e.TURN_USERNAME &&
        envTruthy e.TURN_PASSWORD) = true) ∧
    ((e.TURN_URL = none ∨ e.TURN_USERNAME = none ∨ e.TURN_PASSWORD = none) →
      iceConfig e = [stunServer] ∧
      ∃ s, iceConfigOld e = [stunServer, s] ∧
        (s.urls = none ∨ s.username = none ∨ s.credential = none)) := by
  by_cases h : (envTruthy e.TURN_URL && envTruthy e.TURN_USERNAME &&
      envTruthy e.TURN_PASSWORD) = true
  · refine ⟨⟨fun _ => h, fun _ => by simp [iceConfig, iceConfigOld, h]⟩, ?_⟩
    intro hnone
    exfalso
    rcases hnone with hn | hn | hn <;> rw [hn] at h <;> simp [envTruthy] at h
  · have hf : (envTruthy e.TURN_URL && envTruthy e.TURN_USERNAME &&
        envTruthy e.TURN_PASSWORD) = false := by
      revert h
      cases envTruthy e.TURN_URL && envTruthy e.TURN_USERNAME &&
        envTruthy e.TURN_PASSWORD <;> simp
    constructor
    · rw [hf]
      constructor
      · intro heq
        exfalso
        have : ([stunServer] : List IceServer).length =
            (iceConfigOld e).length := by
          rw [← heq]
          simp [iceConfig, hf]
        simp [iceConfigOld] at this
      · intro hcontra
        exact absurd hcontra (by simp)
    · intro hnone
      refine ⟨by simp [iceConfig, hf], ?_⟩
      refine ⟨{ urls := e.TURN_URL.map (fun u => Urls.many (splitTrim u)),
                username := e.TURN_USERNAME,
                credential := e.TURN_PASSWORD }, rfl, ?_⟩
      rcases hnone with hn | hn | hn <;> simp [hn]

/-- Witness for C8 at the fully unset environment. -/
theorem C8_variant_equivalence_witness :
    iceConfig ⟨none, none, none⟩ = [stunServer] :=
  ((C8_variant_equivalence ⟨none, none, none⟩).2 (Or.inl rfl)).1

/-- C10 (confirmed): for every id that is an inherited `Object.prototype`
property name, the membership test of the signal route answers true on any
registry — in particular one in which the id was never registered — it
still answers true after the disconnect cleanup for that id, and a signal
routed to it takes the send branch with success instead of producing
PeerNotFound. -/
theorem C10_prototype_pollution (r : Registry) (id : PeerId)
    (h : id ∈ protoNames) (fromId : PeerId) (d : Payload) :
    jsIn r id = true ∧
    jsIn (handleDisconnect r id).1 id = true ∧
    handleSignal r id fromId d =
      [Emission.signal (some id) (some fromId) (some id) (some d)] ∧
    routeOutcome r id = RouteOutcome.success := by
  have h1 : jsIn r id = true := (jsIn_eq_true_iff r id).2 (Or.inr h)
  have h2 : jsIn (handleDisconnect r id).1 id = true :=
    (jsIn_eq_true_iff _ id).2 (Or.inr h)
  exact ⟨h1, h2, by simp [handleSignal, h1], by simp [routeOutcome, h1]⟩

/-- Witness for C10 at a concrete input: the never-registered id
"toString" on the empty registry. -/
theorem C10_prototype_pollution_witness :
    "toString" ∈ protoNames ∧
    (jsIn [] "toString" = true ∧
     jsIn (handleDisconnect [] "toString").1 "toString" = true ∧
     handleSignal [] "toString" "A" "x" =
       [Emission.signal (some "toString") (some "A") (some "toString")
         (some "x")] ∧
     routeOutcome [] "toString" = RouteOutcome.success) :=
  ⟨by decide, C10_prototype_pollution [] "toString" (by decide) "A" "x"⟩

/-- Appending emission lists distributes over the delivered projection. -/
theorem delivered_append (f t : PeerId) (l1 l2 : List Emission) :
    delivered f t (l1 ++ l2) = delivered f t l1 ++ delivered f t l2 := by
  induction l1 with
  | nil => simp [delivered]
  | cons e es ih =>
    cases e with
    | introduction a b => simp [delivered, ih]
    | newUserConnected a => simp [delivered, ih]
    | userDisconnected a => simp [delivered, ih]
    | signal target f2 toArg d =>
      simp only [List.cons_append, delivered]
      split
      · simp [ih]
      · exact ih

/-- Connection handling emits no forwarded signal, so it contributes no
delivered payload. -/
theorem delivered_connect (f t : PeerId) (r : Registry) (id : PeerId) :
    delivered f t (handleConnection r id).2.1 = [] := by
  unfold handleConnection
  split <;> simp [delivered]

/-- Delivered projection of one signal-routing step. -/
theorem delivered_handleSignal (f t : PeerId) (r : Registry)
    (toId fromId : PeerId) (d : Payload) :
    delivered f t (handleSignal r toId fromId d) =
      if toId = t ∧ fromId = f ∧ jsIn r toId = true then [d] else [] := by
  unfold handleSignal
  by_cases h : jsIn r toId = true
  · rw [if_pos h]
    simp [delivered, h]
  · rw [if_neg h,
        if_neg (fun hc : toId = t ∧ fromId = f ∧ jsIn r toId = true =>
          h hc.2.2)]
    simp [delivered]

/-- C9 (confirmed): processed serially by the event loop, a trace of
events delivers the signals of a fixed (sender, target) pair to the target
in the sender's submission order: the delivered payload sequence is always
an in-order subsequence of the submitted one (signals routed while the
target was absent are dropped), and it equals the submitted sequence
whenever the target is registered at the start and never disconnects
during the trace, regardless of interleaving with other events. -/
theorem C9_per_sender_ordering (r : Registry) (evs : List Event)
    (f t : PeerId) :
    List.Sublist (delivered f t (run r evs).2) (submitted f t evs) ∧
    (t ∈ r → (∀ e ∈ evs, e ≠ Event.disconnect t) →
      delivered f t (run r evs).2 = submitted f t evs) := by
  induction evs generalizing r with
  | nil => simp [run, delivered, submitted]
  | cons e es ih =>
    have hrun : (run r (e :: es)).2 = (step r e).2 ++ (run (step r e).1 es).2 :=
      rfl
    rw [hrun, delivered_append]
    cases e with
    | connect id =>
      rw [show (step r (Event.connect id)).2 = (handleConnection r id).2.1 from
            rfl,
          delivered_connect]
      have hsub : submitted f t (Event.connect id :: es) = submitted f t es :=
        rfl
      rw [hsub]
      constructor
      · simpa using (ih ((step r (Event.connect id)).1)).1
      · intro ht hne
        have ht2 : t ∈ (step r (Event.connect id)).1 := by
          show t ∈ (handleConnection r id).1
          unfold handleConnection
          split
          · exact ht
          · exact List.mem_append_left _ ht
        have heq := (ih ((step r (Event.connect id)).1)).2 ht2
          (fun x hx => hne x (List.mem_cons_of_mem _ hx))
        simpa using heq
    | disconnect id =>
      rw [show (step r (Event.disconnect id)).2 =
            [Emission.userDisconnected id] from rfl]
      have hdel : delivered f t [Emission.userDisconnected id] = [] := by
        simp [delivered]
      rw [hdel]
      have hsub : submitted f t (Event.disconnect id :: es) =
          submitted f t es := rfl
      rw [hsub]
      constructor
      · simpa using (ih ((step r (Event.disconnect id)).1)).1
      · intro ht hne
        have hid : id ≠ t := by
          intro hidt
          exact hne (Event.disconnect id) (List.mem_cons_self _ _)
            (by rw [hidt])
        have ht2 : t ∈ (step r (Event.disconnect id)).1 := by
          show t ∈ (handleDisconnect r id).1
          unfold handleDisconnect
          exact (List.mem_erase_of_ne (Ne.symm hid)).2 ht
        have heq := (ih ((step r (Event.disconnect id)).1)).2 ht2
          (fun x hx => hne x (List.mem_cons_of_mem _ hx))
        simpa using heq
    | signal toId f2 d =>
      rw [show (step r (Event.signal toId f2 d)).2 = handleSignal r toId f2 d
            from rfl,
          delivered_handleSignal]
      have hstep : (step r (Event.signal toId f2 d)).1 = r := rfl
      rw [hstep]
      have hsub : submitted f t (Event.signal toId f2 d :: es) =
          if toId = t ∧ f2 = f then d :: submitted f t es
          else submitted f t es := rfl
      rw [hsub]
      by_cases hc : toId = t ∧ f2 = f
      · rw [if_pos hc]
        by_cases hj : jsIn r toId = true
        · rw [if_pos ⟨hc.1, hc.2, hj⟩]
          constructor
          · exact List.Sublist.cons₂ d (ih r).1
          · intro ht hne
            have heq := (ih r).2 ht
              (fun x hx => hne x (List.mem_cons_of_mem _ hx))
            simp [heq]
        · rw [if_neg (fun hcc => hj hcc.2.2)]
          constructor
          · exact List.Sublist.cons d (ih r).1
          · intro ht hne
            exfalso
            apply hj
            rw [jsIn_eq_true_iff, hc.1]
            exact Or.inl ht
      · rw [if_neg (fun hcc => hc ⟨hcc.1, hcc.2.1⟩), if_neg hc]
        constructor
        · simpa using (ih r).1
        · intro ht hne
          have heq := (ih r).2 ht
            (fun x hx => hne x (List.mem_cons_of_mem _ hx))
          simpa using heq

/-- Witness for C9 at a concrete trace: two signals from "B" to "A" with
both ids registered arrive in submission order. -/
theorem C9_per_sender_ordering_witness :
    delivered "B" "A"
        (run ["A", "B"]
          [Event.signal "A" "B" "m1", Event.signal "A" "B" "m2"]).2 =
      submitted "B" "A"
        [Event.signal "A" "B" "m1", Event.signal "A" "B" "m2"] :=
  (C9_per_sender_ordering ["A", "B"]
      [Event.signal "A" "B" "m1", Event.signal "A" "B" "m2"] "B" "A").2
    (by decide) (by decide)

end VoiceServer
